import Mathlib

/-!
A shallow embedding of the data-loading helpers of the CovidFightPlan
repository (module covid_analysis_helpers.data_loader), together with
theorems checking the specification document against the code.

Modelling conventions:
* a cell of a generic dataframe column is `Val` (missing, integer, string,
  or a float quotient kept symbolically as numerator and denominator);
* missing values (np.nan, NaT) are `Option.none` or `Val.na`;
* dates are day numbers (`Int`); `daysFromCivil` converts a calendar date
  to its day number;
* fallible library operations return `Except String`.
-/

namespace Covid

/-- Ordered age buckets of the categorical dtype built in load_patient_info
(data_loader lines 89 to 104). -/
def age_categories : List String :=
  ["0s", "10s", "20s", "30s", "40s", "50s", "60s", "70s", "80s", "90s", "100s"]

/-- Lexicographic comparison of character lists by code point. Python
compares plain str values this way; it is the comparison performed by the
expressions in assign_age_category, since Series.apply hands the lambda the
raw string value of each cell, not an ordered-categorical scalar. -/
def pyLeChars : List Char → List Char → Bool
  | [], _ => true
  | _ :: _, [] => false
  | a :: as, b :: bs => if a = b then pyLeChars as bs else decide (a < b)

/-- Python string comparison x <= y. -/
def pyStrLe (a b : String) : Bool :=
  pyLeChars a.data b.data

/-- Model of assign_age_category (data_loader lines 189 to 202). The input
is the age cell; pd.isnull maps missing to missing, and the two guards are
Python string comparisons against the literals. -/
def assign_age_category : Option String → Option String
  | none => none
  | some x =>
      if pyStrLe x "20s" then some "young"
      else if pyStrLe x "50s" then some "middle"
      else some "old"

/-- Rank of an age bucket in the ordered decade scale 0s, 10s, ..., 100s. -/
def decadeRank : String → Option Nat
  | "0s" => some 0
  | "10s" => some 1
  | "20s" => some 2
  | "30s" => some 3
  | "40s" => some 4
  | "50s" => some 5
  | "60s" => some 6
  | "70s" => some 7
  | "80s" => some 8
  | "90s" => some 9
  | "100s" => some 10
  | _ => none

/-- Age category as the specification words it, over the ordered decade
scale: young up to the 20s bucket, middle up to the 50s bucket, old above,
missing when the age is missing or not a bucket. -/
def age_category_spec (a : Option String) : Option String :=
  match a.bind decadeRank with
  | none => none
  | some r =>
      if r ≤ 2 then some "young"
      else if r ≤ 5 then some "middle"
      else some "old"

/-- Model of the categorical cast df.astype for the age column: values
outside the declared categories become missing. -/
def castAge (o : Option String) : Option String :=
  o.bind fun s => if age_categories.contains s then some s else none

/-- Model of the contact_number cleaning of load_patient_info (lines 84 to
86): the sentinel "-" becomes missing, then any value whose string length
is 10 becomes missing; every other value is kept (the later float cast
does not change which cells are missing). -/
def contact_number_clean : Option String → Option String
  | none => none
  | some s => if s = "-" then none else if s.length = 10 then none else some s

/-- Whole-day difference between two optional day numbers: pandas Timestamp
subtraction gives NaT when either side is NaT, and NaT.days is nan. -/
def dayDiff (e s : Option Int) : Option Int :=
  match e, s with
  | some a, some b => some (a - b)
  | _, _ => none

/-- Day number of a Gregorian calendar date (days since 1970-01-01),
used to express concrete dates in examples; valid for positive years. -/
def daysFromCivil (y m d : Int) : Int :=
  let y1 : Int := if m ≤ 2 then y - 1 else y
  let era : Int := (if 0 ≤ y1 then y1 else y1 - 399) / 400
  let yoe : Int := y1 - era * 400
  let mp : Int := (m + 9) % 12
  let doy : Int := (153 * mp + 2) / 5 + d - 1
  let doe : Int := yoe * 365 + yoe / 4 - yoe / 100 + doy
  era * 146097 + doe - 719468

/-- One input row of the patient table, restricted to the columns that
load_patient_info transforms (untouched columns are omitted). The date
cells are already parsed day numbers; the symptom-onset parsing stage is
modelled separately by symptom_onset_pipeline. -/
structure PatientRow where
  patient_id : String
  age : Option String
  contact_number : Option String
  symptom_onset_date : Option Int
  confirmed_date : Option Int
  released_date : Option Int
  deceased_date : Option Int
  deriving DecidableEq, Repr

/-- The derived columns of one patient row after load_patient_info. -/
structure PatientDerived where
  patient_id : String
  age : Option String
  age_category : Option String
  contact_number : Option String
  symptom_to_confirmed : Option Int
  confirmed_to_released : Option Int
  confirmed_to_deceased : Option Int
  deriving DecidableEq, Repr

/-- Row-wise model of load_patient_info (data_loader lines 47 to 152):
contact cleaning, categorical age cast, age category, and the three
interval columns computed by row-wise apply. -/
def load_patient_info_row (r : PatientRow) : PatientDerived :=
  let age := castAge r.age
  { patient_id := r.patient_id
    age := age
    age_category := assign_age_category age
    contact_number := contact_number_clean r.contact_number
    symptom_to_confirmed := dayDiff r.confirmed_date r.symptom_onset_date
    confirmed_to_released := dayDiff r.released_date r.confirmed_date
    confirmed_to_deceased := dayDiff r.deceased_date r.confirmed_date }

/-- Table-level model of load_patient_info: the cleaning and derivations
are independent per row. -/
def load_patient_info (rows : List PatientRow) : List PatientDerived :=
  rows.map load_patient_info_row

/-- One input row of the cases table, restricted to the columns that
load_cases_data transforms. The raw latitude and longitude fields are CSV
strings before the float cast. -/
structure CaseRow where
  case_id : String
  province : String
  city : String
  latitude : String
  longitude : String
  deriving DecidableEq, Repr

/-- One output row of load_cases_data; latitude and longitude are optional
(missing models np.nan after the float cast). -/
structure CaseDerived where
  case_id : String
  province : String
  city : String
  sub_city : String
  latitude : Option String
  longitude : Option String
  deriving DecidableEq, Repr

/-- Row-wise model of load_cases_data (data_loader lines 6 to 44): rows
whose latitude is the sentinel "-" get both coordinates set to missing;
a city of "-" is replaced by the province; sub_city copies the city except
when the (substituted) city is the literal "from other city", in which
case it takes the province. -/
def load_cases_row (r : CaseRow) : CaseDerived :=
  let lat : Option String := if r.latitude = "-" then none else some r.latitude
  let lng : Option String := if r.latitude = "-" then none else some r.longitude
  let city1 := if r.city = "-" then r.province else r.city
  let sub := if city1 = "from other city" then r.province else city1
  { case_id := r.case_id
    province := r.province
    city := city1
    sub_city := sub
    latitude := lat
    longitude := lng }

/-- Table-level model of load_cases_data: the masked assignments are
independent per row. -/
def load_cases_data (rows : List CaseRow) : List CaseDerived :=
  rows.map load_cases_row

/-- Example rows used by concrete witnesses. -/
def caseRowNoCoord : CaseRow :=
  { case_id := "1000001", province := "Seoul", city := "Jongno-gu",
    latitude := "-", longitude := "-" }

def caseRowNoCity : CaseRow :=
  { case_id := "2000019", province := "Busan", city := "-",
    latitude := "35.1", longitude := "129.0" }

def patientRowDates : PatientRow :=
  { patient_id := "6001000001", age := some "30s", contact_number := some "2",
    symptom_onset_date := none,
    confirmed_date := some (daysFromCivil 2020 1 10),
    released_date := some (daysFromCivil 2020 1 20),
    deceased_date := none }

def patientRowContactId : PatientRow :=
  { patient_id := "1000000002", age := some "40s",
    contact_number := some "1000000001",
    symptom_onset_date := none, confirmed_date := none,
    released_date := none, deceased_date := none }

def patientRowContactPlain : PatientRow :=
  { patient_id := "1000000003", age := some "50s", contact_number := some "17",
    symptom_onset_date := none, confirmed_date := none,
    released_date := none, deceased_date := none }

/-- A cell of a generic dataframe column. `div` keeps the floating point
quotient of two integer cells symbolically as numerator and denominator;
no claim inspects the float value itself. -/
inductive Val where
  | na : Val
  | int : Int → Val
  | str : String → Val
  | div : Int → Int → Val
  deriving DecidableEq, Repr

/-- Numeric view of a cell. -/
def Val.toInt? : Val → Option Int
  | Val.int n => some n
  | _ => none

/-- A dataframe: a row index and a sequence of named columns. -/
structure DataFrame where
  index : List String
  cols : List (String × List Val)
  deriving DecidableEq, Repr

/-- Well-formed frame: every column has one cell per index entry. -/
def DataFrame.WF (df : DataFrame) : Prop :=
  ∀ p ∈ df.cols, (Prod.snd p).length = df.index.length

/-- First column carrying the given label, as pandas indexing selects. -/
def findCol (n : String) : List (String × List Val) → Option (List Val)
  | [] => none
  | p :: rest => if p.1 = n then some p.2 else findCol n rest

def DataFrame.getCol? (df : DataFrame) (n : String) : Option (List Val) :=
  findCol n df.cols

/-- Column assignment: replaces the labelled column in place when present,
otherwise appends a new column on the right. -/
def setCols (n : String) (c : List Val) (cols : List (String × List Val)) :
    List (String × List Val) :=
  if (findCol n cols).isSome
  then cols.map fun p => if p.1 = n then (n, c) else p
  else cols ++ [(n, c)]

def DataFrame.setCol (df : DataFrame) (n : String) (c : List Val) : DataFrame :=
  ⟨df.index, setCols n c df.cols⟩

/-- df.rename with inplace true: every column labelled a is relabelled b. -/
def renameCols (a b : String) (cols : List (String × List Val)) :
    List (String × List Val) :=
  cols.map fun p => if p.1 = a then (b, p.2) else p

def DataFrame.renameCol (df : DataFrame) (a b : String) : DataFrame :=
  ⟨df.index, renameCols a b df.cols⟩

/-- Series.diff: difference with the previous row; missing at the first
row and wherever either operand is missing. -/
def diffAux (prev : Val) : List Val → List Val
  | [] => []
  | v :: rest =>
      (match prev.toInt?, v.toInt? with
       | some p, some x => Val.int (x - p)
       | _, _ => Val.na) :: diffAux v rest

def diffCol (c : List Val) : List Val :=
  diffAux Val.na c

/-- Last value recorded for a key in an accumulator of seen rows. -/
def lastSeen {α : Type} (k : Val) : List (Val × α) → Option α
  | [] => none
  | p :: rest => if p.1 = k then some p.2 else lastSeen k rest

/-- groupby(g).diff: each row subtracts the previous row of the same key;
missing at the first row of each group, wherever either operand is
missing, and at rows whose key is missing (pandas keeps those rows out of
every group). -/
def groupedDiffAux (seen : List (Val × Val)) : List (Val × Val) → List Val
  | [] => []
  | (k, v) :: rest =>
      if k = Val.na then Val.na :: groupedDiffAux seen rest
      else
        (match lastSeen k seen with
         | none => Val.na
         | some p =>
             match p.toInt?, v.toInt? with
             | some pn, some xn => Val.int (xn - pn)
             | _, _ => Val.na) :: groupedDiffAux ((k, v) :: seen) rest

def groupedDiffCol (keys c : List Val) : List Val :=
  groupedDiffAux [] (keys.zip c)

/-- fillna with value df: each missing cell takes the cell of the source
column at the same position. -/
def fillnaCol (orig c : List Val) : List Val :=
  List.zipWith (fun o x => if x = Val.na then o else x) orig c

/-- astype(int): succeeds only when every cell is an integer; pandas
raises on missing or otherwise non finite cells. -/
def astypeInt : List Val → Except String (List Int)
  | [] => Except.ok []
  | v :: rest =>
      match v.toInt? with
      | none => Except.error "Cannot convert non-finite values to integer"
      | some n => (astypeInt rest).map fun l => n :: l

/-- Elementwise float division of two columns; missing when either operand
is missing. -/
def divCol (a b : List Val) : List Val :=
  List.zipWith (fun x y =>
    match x.toInt?, y.toInt? with
    | some m, some n => Val.div m n
    | _, _ => Val.na) a b

/-- Name of the derived ratio column (data_loader line 164). -/
def ratioNameOf (ratio : String × String) : String :=
  ratio.1 ++ "_to_" ++ ratio.2 ++ "_ratio"

/-- One expanded column of update_time_df before the integer cast: the
diff (grouped when a grouping column is given) filled at missing positions
from the original column, then cast to integer (lines 166 to 173). Column
lookups raise the KeyError of pandas indexing when the label is absent. -/
def newColumnOf (df : DataFrame) (grouping : Option String) (c : String) :
    Except String (List Int) :=
  match df.getCol? c with
  | none => Except.error ("KeyError: " ++ c)
  | some col =>
      match grouping with
      | some g =>
          match df.getCol? g with
          | none => Except.error ("KeyError: " ++ g)
          | some keys => astypeInt (fillnaCol col (groupedDiffCol keys col))
      | none => astypeInt (fillnaCol col (diffCol col))

/-- Columns of the daily-update frame, one per expand entry, in order. -/
def buildNewCols (df : DataFrame) (grouping : Option String) :
    List String → Except String (List (String × List Val))
  | [] => Except.ok []
  | c :: rest =>
      match newColumnOf df grouping c with
      | Except.error e => Except.error e
      | Except.ok l =>
          match buildNewCols df grouping rest with
          | Except.error e => Except.error e
          | Except.ok tail => Except.ok ((c, l.map Val.int) :: tail)

/-- Model of update_time_df (data_loader lines 155 to 186). The value on
success is the concatenated frame together with the final state of the two
mutated arguments: the function appends the ratio column name to expand,
assigns the accumulated ratio column on df and renames the expanded
columns of df in place, so the caller's df and expand are both changed. -/
def update_time_df (df : DataFrame) (expand : List String)
    (ratio : String × String) (grouping : Option String) :
    Except String (DataFrame × DataFrame × List String) :=
  -- lines 166 to 173: daily updates of the expand columns
  match buildNewCols df grouping expand with
  | Except.error e => Except.error e
  | Except.ok newCols =>
      -- line 174: ratio of the daily columns
      match findCol ratio.1 newCols with
      | none => Except.error ("KeyError: " ++ ratio.1)
      | some num =>
          match findCol ratio.2 newCols with
          | none => Except.error ("KeyError: " ++ ratio.2)
          | some den =>
              -- line 175: every daily column name takes the new_ marker
              let dfNewCols :=
                (newCols ++ [(ratioNameOf ratio, divCol num den)]).map
                  fun p => ("new_" ++ p.1, p.2)
              -- line 178: ratio on the original frame, assigned in place
              match df.getCol? ratio.1 with
              | none => Except.error ("KeyError: " ++ ratio.1)
              | some numO =>
                  match df.getCol? ratio.2 with
                  | none => Except.error ("KeyError: " ++ ratio.2)
                  | some denO =>
                      let df1 := df.setCol (ratioNameOf ratio) (divCol numO denO)
                      -- lines 179 to 181: expand.append and in place renames
                      let expand2 := expand ++ [ratioNameOf ratio]
                      let df2 := expand2.foldl
                        (fun d c => d.renameCol c ("accumulated_" ++ c)) df1
                      -- line 184: concat along columns
                      Except.ok (⟨df2.index, df2.cols ++ dfNewCols⟩, df2, expand2)

/-- First difference with the first value falling back to the accumulated
value, as the specification describes the ungrouped expansion. -/
def firstDiffFallback : List Int → List Int
  | [] => []
  | x :: xs => x :: List.zipWith (fun b a => b - a) xs (x :: xs)

/-- Per-group first difference: each row subtracts the previous row of the
same key, and the first row of each group keeps its accumulated value. -/
def firstDiffPerGroupAux (seen : List (Val × Int)) : List (Val × Int) → List Int
  | [] => []
  | (k, v) :: rest =>
      (match lastSeen k seen with
       | none => v
       | some p => v - p) :: firstDiffPerGroupAux ((k, v) :: seen) rest

def firstDiffPerGroup (keys : List Val) (a : List Int) : List Int :=
  firstDiffPerGroupAux [] (keys.zip a)

/-- Expected daily values: grouped when a key column is given, global
otherwise. -/
def expandedSpec : Option (List Val) → List Int → List Int
  | none, a => firstDiffFallback a
  | some keys, a => firstDiffPerGroup keys a

/-- Ties the optional grouping argument to the optional key column used by
the specification: no grouping uses no keys, and a grouping column must be
present in the frame with no missing key. -/
def KeysFor (df : DataFrame) : Option String → Option (List Val) → Prop
  | none, none => True
  | some g, some keys => df.getCol? g = some keys ∧ Val.na ∉ keys
  | none, some _ => False
  | some _, none => False

/-- The rename loop of lines 180 to 181, on raw column lists. -/
def foldRename (l : List String) (cols : List (String × List Val)) :
    List (String × List Val) :=
  l.foldl (fun cs c => renameCols c ("accumulated_" ++ c) cs) cols

/-- A small accumulated frame used by concrete witnesses; the confirmed
column is the literal example of the specification. -/
def exDf : DataFrame :=
  { index := ["2020-02-01", "2020-02-02", "2020-02-03"],
    cols := [("confirmed", [Val.int 10, Val.int 15, Val.int 23]),
             ("released", [Val.int 1, Val.int 2, Val.int 4])] }

/-- Final state of the mutated frame argument on the example run. -/
def exDfM : DataFrame :=
  { index := ["2020-02-01", "2020-02-02", "2020-02-03"],
    cols := [("accumulated_confirmed", [Val.int 10, Val.int 15, Val.int 23]),
             ("accumulated_released", [Val.int 1, Val.int 2, Val.int 4]),
             ("accumulated_released_to_confirmed_ratio",
               [Val.div 1 10, Val.div 2 15, Val.div 4 23])] }

/-- Returned frame of the example run. -/
def exRes : DataFrame :=
  { index := ["2020-02-01", "2020-02-02", "2020-02-03"],
    cols := exDfM.cols ++
      [("new_confirmed", [Val.int 10, Val.int 5, Val.int 8]),
       ("new_released", [Val.int 1, Val.int 1, Val.int 2]),
       ("new_released_to_confirmed_ratio",
         [Val.div 1 10, Val.div 1 5, Val.div 2 8])] }

/-- Final state of the mutated expand argument on the example run. -/
def exExpandM : List String :=
  ["confirmed", "released", "released_to_confirmed_ratio"]

/-- The example frame with a missing accumulated value at the second row. -/
def exNaDf : DataFrame :=
  { index := ["2020-02-01", "2020-02-02", "2020-02-03"],
    cols := [("confirmed", [Val.int 10, Val.na, Val.int 23]),
             ("released", [Val.int 1, Val.int 2, Val.int 4])] }

/-- Python str.strip: the characters removed at both ends are whitespace. -/
def pyStrip (s : String) : String :=
  String.mk (((s.data.dropWhile Char.isWhitespace).reverse.dropWhile
    Char.isWhitespace).reverse)

/-- Numeric value of a digit character. -/
def digitVal? (c : Char) : Option Int :=
  if c.isDigit then some ((c.toNat : Int) - 48) else none

/-- A strict ISO date reader for concrete examples: exactly the ten
characters YYYY-MM-DD, returning the day number. -/
def parseDateISO (s : String) : Option Int :=
  match s.data with
  | [a, b, c, d, s1, e, f, s2, g, i] => do
      let a1 ← digitVal? a
      let b1 ← digitVal? b
      let c1 ← digitVal? c
      let d1 ← digitVal? d
      let e1 ← digitVal? e
      let f1 ← digitVal? f
      let g1 ← digitVal? g
      let i1 ← digitVal? i
      if s1 = '-' ∧ s2 = '-' then
        some (daysFromCivil (a1 * 1000 + b1 * 100 + c1 * 10 + d1)
          (e1 * 10 + f1) (g1 * 10 + i1))
      else none
  | _ => none

/-- The date reader with the whitespace tolerance the pandas datetime
machinery has: surrounding whitespace never makes parsing fail. -/
def pTol (s : String) : Option Int :=
  parseDateISO (pyStrip s)

/-- Best effort conversion of one raw cell by the datetime machinery: a
missing cell or the empty string becomes NaT, any other string must be
accepted by the reader; none signals a conversion failure. -/
def pdConvert (p : String → Option Int) : Option String → Option (Option Int)
  | none => some none
  | some s => if s = "" then some none else (p s).map some

/-- A column as it stands after read_csv with parse_dates: either fully
converted to datetimes or left as the raw strings. -/
inductive ParsedCol where
  | dates : List (Option Int) → ParsedCol
  | strings : List (Option String) → ParsedCol
  deriving DecidableEq, Repr

/-- read_csv with parse_dates converts the whole column when every cell
converts, and otherwise leaves the raw strings untouched. -/
def tryParseDates (p : String → Option Int) (col : List (Option String)) :
    ParsedCol :=
  if col.all fun o => (pdConvert p o).isSome
  then ParsedCol.dates (col.map fun o => (pdConvert p o).getD none)
  else ParsedCol.strings col

/-- Lines 79 to 81 of data_loader: the str accessor exists only on string
columns, so a column already holding datetimes raises; on a string column
every cell is stripped and the column is cast to datetime, raising when a
stripped cell does not convert. -/
def stripThenParse (p : String → Option Int) :
    ParsedCol → Except String (List (Option Int))
  | ParsedCol.dates _ =>
      Except.error "AttributeError: Can only use .str accessor with string values"
  | ParsedCol.strings ss =>
      if (ss.map (Option.map pyStrip)).all fun o => (pdConvert p o).isSome
      then Except.ok ((ss.map (Option.map pyStrip)).map fun o =>
        (pdConvert p o).getD none)
      else Except.error "ValueError: could not convert column to datetime"

/-- The symptom_onset_date pipeline of load_patient_info: the parse_dates
pass of read_csv followed by the strip and re-cast of lines 79 to 81. -/
def load_symptom_onset (p : String → Option Int)
    (raw : List (Option String)) : Except String (List (Option Int)) :=
  stripThenParse p (tryParseDates p raw)

/-- Mapping a function over a list acts cell-wise on optional indexing. -/
theorem get?_map_eq {α β : Type} (f : α → β) :
    ∀ (l : List α) (i : Nat), (l.map f).get? i = (l.get? i).map f
  | [], _ => by simp
  | _ :: _, 0 => by simp
  | _ :: l, i + 1 => by simp [get?_map_eq f l i]

/-- Appending to a string is injective on the right argument. -/
theorem string_append_cancel_left (p x y : String) (h : p ++ x = p ++ y) :
    x = y := by
  have h2 := congrArg String.data h
  rw [String.data_append, String.data_append] at h2
  exact String.ext (List.append_cancel_left h2)

/-- Accumulated column names never collide with daily column names. -/
theorem accumulated_ne_new (x y : String) : "accumulated_" ++ x ≠ "new_" ++ y := by
  intro h
  have h2 := congrArg String.data h
  rw [String.data_append, String.data_append] at h2
  have ha : "accumulated_".data = 'a' :: "ccumulated_".data := rfl
  have hn : "new_".data = 'n' :: "ew_".data := rfl
  rw [ha, hn] at h2
  simp only [List.cons_append, List.cons.injEq] at h2
  exact absurd h2.1 (by decide)

/-- Unfolding lemma for lookups on a nonempty column list. -/
theorem findCol_cons (n : String) (p : String × List Val)
    (rest : List (String × List Val)) :
    findCol n (p :: rest) = if p.1 = n then some p.2 else findCol n rest := rfl

/-- Unfolding lemma for renames on a nonempty column list. -/
theorem renameCols_cons (a b : String) (p : String × List Val)
    (rest : List (String × List Val)) :
    renameCols a b (p :: rest) =
      (if p.1 = a then (b, p.2) else p) :: renameCols a b rest := rfl

/-- A column lookup fails exactly when the label is absent. -/
theorem findCol_eq_none_iff (n : String) :
    ∀ cols : List (String × List Val), findCol n cols = none ↔ n ∉ cols.map Prod.fst
  | [] => by simp [findCol]
  | p :: rest => by
      by_cases h : p.1 = n
      · simp [findCol, h]
      · have h2 : ¬(n = p.1) := fun he => h he.symm
        simp [findCol, h, h2, findCol_eq_none_iff n rest]

/-- A successful column lookup comes from a member of the column list. -/
theorem findCol_mem (n : String) :
    ∀ (cols : List (String × List Val)) (v : List Val),
      findCol n cols = some v → ∃ p ∈ cols, p.1 = n ∧ p.2 = v
  | [], v => by simp [findCol]
  | p :: rest, v => by
      by_cases h : p.1 = n
      · rw [findCol, if_pos h]
        intro hv
        exact ⟨p, by simp, h, (Option.some.inj hv)⟩
      · rw [findCol, if_neg h]
        intro hv
        obtain ⟨q, hq, h1, h2⟩ := findCol_mem n rest v hv
        exact ⟨q, by simp [hq], h1, h2⟩

/-- Lookup distributes over concatenation of column lists. -/
theorem findCol_append (m : String) :
    ∀ xs ys : List (String × List Val),
      findCol m (xs ++ ys) = ((findCol m xs).elim (findCol m ys) some)
  | [], ys => rfl
  | p :: rest, ys => by
      by_cases h : p.1 = m
      · simp [findCol, h]
      · simp [findCol, h, findCol_append m rest ys]

/-- In place replacement of one labelled column leaves other lookups
unchanged. -/
theorem findCol_replace_preserve (m nm : String) (c : List Val) (h : m ≠ nm) :
    ∀ cols : List (String × List Val),
      findCol m (cols.map fun p => if p.1 = nm then (nm, c) else p) = findCol m cols
  | [] => rfl
  | p :: rest => by
      by_cases h1 : p.1 = nm
      · have h2 : ¬(nm = m) := fun he => h he.symm
        simp [findCol, h1, h2, findCol_replace_preserve m nm c h rest]
      · by_cases h2 : p.1 = m
        · simp [findCol, h1, h2, h]
        · simp [findCol, h1, h2, findCol_replace_preserve m nm c h rest]

/-- Column assignment leaves lookups of other labels unchanged. -/
theorem findCol_setCols_preserve (m nm : String) (c : List Val)
    (cols : List (String × List Val)) (h : m ≠ nm) :
    findCol m (setCols nm c cols) = findCol m cols := by
  unfold setCols
  split
  · exact findCol_replace_preserve m nm c h cols
  · rw [findCol_append]
    cases hf : findCol m cols with
    | none =>
        have h2 : ¬(nm = m) := fun he => h he.symm
        simp [findCol, h2]
    | some v => rfl

/-- Labels after a column assignment: the assigned label or an old one. -/
theorem mem_names_setCols (m nm : String) (c : List Val)
    (cols : List (String × List Val))
    (h : m ∈ (setCols nm c cols).map Prod.fst) :
    m = nm ∨ m ∈ cols.map Prod.fst := by
  unfold setCols at h
  split at h
  · rw [List.map_map] at h
    obtain ⟨p, hp, he⟩ := List.mem_map.mp h
    by_cases h1 : p.1 = nm
    · simp only [Function.comp, h1, if_pos] at he
      exact Or.inl he.symm
    · simp only [Function.comp, h1, if_neg, not_false_iff] at he
      exact Or.inr (he ▸ List.mem_map_of_mem Prod.fst hp)
  · rw [List.map_append] at h
    rcases List.mem_append.mp h with h2 | h2
    · exact Or.inr h2
    · simp at h2
      exact Or.inl h2

/-- Renaming leaves lookups of labels distinct from both names unchanged. -/
theorem findCol_renameCols_preserve (m a b : String) (hma : m ≠ a) (hmb : m ≠ b) :
    ∀ cols : List (String × List Val),
      findCol m (renameCols a b cols) = findCol m cols
  | [] => rfl
  | p :: rest => by
      rw [renameCols_cons]
      by_cases h1 : p.1 = a
      · have h2 : ¬(b = m) := fun he => hmb he.symm
        have h3 : ¬(p.1 = m) := fun he => hma (he.symm.trans h1)
        rw [if_pos h1, findCol_cons, findCol_cons, if_neg h3]
        dsimp only
        rw [if_neg h2, findCol_renameCols_preserve m a b hma hmb rest]
      · rw [if_neg h1, findCol_cons, findCol_cons,
          findCol_renameCols_preserve m a b hma hmb rest]

/-- Renaming a present label to a fresh one: the new label looks up the
value the old label had. -/
theorem findCol_renameCols_hit (a b : String) (v : List Val) :
    ∀ cols : List (String × List Val), b ∉ cols.map Prod.fst →
      findCol a cols = some v → findCol b (renameCols a b cols) = some v
  | [], _, hf => by simp [findCol] at hf
  | p :: rest, hb, hf => by
      have hb1 : p.1 ≠ b := fun he => hb (by simp [he.symm])
      have hb2 : b ∉ rest.map Prod.fst := fun he => hb (by simp [he])
      rw [renameCols_cons]
      by_cases h : p.1 = a
      · rw [findCol_cons, if_pos h] at hf
        rw [if_pos h, findCol_cons]
        dsimp only
        rw [if_pos rfl]
        exact hf
      · rw [findCol_cons, if_neg h] at hf
        rw [if_neg h, findCol_cons, if_neg hb1]
        exact findCol_renameCols_hit a b v rest hb2 hf

/-- Labels after a rename: the new label or an old one. -/
theorem mem_names_renameCols (m a b : String) :
    ∀ cols : List (String × List Val),
      m ∈ (renameCols a b cols).map Prod.fst → m = b ∨ m ∈ cols.map Prod.fst
  | [] => by simp [renameCols]
  | p :: rest => by
      intro h
      rw [renameCols, List.map_cons, List.map_cons] at h
      rcases List.mem_cons.mp h with h2 | h2
      · by_cases h1 : p.1 = a
        · rw [if_pos h1] at h2
          exact Or.inl h2
        · rw [if_neg h1] at h2
          exact Or.inr (by simp [h2])
      · rcases mem_names_renameCols m a b rest h2 with h3 | h3
        · exact Or.inl h3
        · exact Or.inr (by simp [h3])

/-- Renaming never changes the stored column values. -/
theorem renameCols_map_snd (a b : String) :
    ∀ cols : List (String × List Val),
      (renameCols a b cols).map Prod.snd = cols.map Prod.snd
  | [] => rfl
  | p :: rest => by
      rw [renameCols_cons, List.map_cons, List.map_cons,
        renameCols_map_snd a b rest]
      congr 1
      split <;> rfl

/-- The rename loop leaves lookups unchanged for a label distinct from
every processed name and from every produced accumulated name. -/
theorem foldRename_preserve (m : String) :
    ∀ (l : List String) (cols : List (String × List Val)),
      (∀ c ∈ l, m ≠ c ∧ m ≠ "accumulated_" ++ c) →
      findCol m (foldRename l cols) = findCol m cols
  | [], _, _ => rfl
  | c :: rest, cols, h => by
      have hc := h c (by simp)
      have step : foldRename (c :: rest) cols =
          foldRename rest (renameCols c ("accumulated_" ++ c) cols) := rfl
      rw [step, foldRename_preserve m rest _ fun c2 hc2 => h c2 (by simp [hc2])]
      exact findCol_renameCols_preserve m c _ hc.1 hc.2 cols

/-- Labels after the rename loop: an original label or an accumulated
version of a processed name. -/
theorem foldRename_names (m : String) :
    ∀ (l : List String) (cols : List (String × List Val)),
      m ∈ (foldRename l cols).map Prod.fst →
      m ∈ cols.map Prod.fst ∨ ∃ c ∈ l, m = "accumulated_" ++ c
  | [], _, h => Or.inl h
  | c :: rest, cols, h => by
      have step : foldRename (c :: rest) cols =
          foldRename rest (renameCols c ("accumulated_" ++ c) cols) := rfl
      rw [step] at h
      rcases foldRename_names m rest _ h with h2 | ⟨c2, hc2, he⟩
      · rcases mem_names_renameCols m c _ cols h2 with he | h3
        · exact Or.inr ⟨c, by simp, he⟩
        · exact Or.inl h3
      · exact Or.inr ⟨c2, by simp [hc2], he⟩

/-- The rename loop never changes the stored column values. -/
theorem foldRename_map_snd :
    ∀ (l : List String) (cols : List (String × List Val)),
      (foldRename l cols).map Prod.snd = cols.map Prod.snd
  | [], _ => rfl
  | c :: rest, cols =>
      (foldRename_map_snd rest _).trans (renameCols_map_snd c _ cols)

/-- After the rename loop, the accumulated version of a processed name
looks up the value the plain name had, under freshness of the involved
names. -/
theorem foldRename_find_acc :
    ∀ (l : List String) (cols : List (String × List Val)) (n : String)
      (v : List Val),
      n ∈ l → l.Nodup → findCol n cols = some v →
      ("accumulated_" ++ n) ∉ cols.map Prod.fst →
      (∀ c ∈ l, c ≠ "accumulated_" ++ n) →
      (∀ c ∈ l, n ≠ "accumulated_" ++ c) →
      findCol ("accumulated_" ++ n) (foldRename l cols) = some v
  | [], _, n, v, hn, _, _, _, _, _ => absurd hn (by simp)
  | c :: rest, cols, n, v, hn, hnd, hf, hacc, h5, h6 => by
      have step : foldRename (c :: rest) cols =
          foldRename rest (renameCols c ("accumulated_" ++ c) cols) := rfl
      rw [step]
      by_cases hcn : c = n
      · subst hcn
        have h1 : findCol ("accumulated_" ++ c) (renameCols c ("accumulated_" ++ c) cols)
            = some v := findCol_renameCols_hit c _ v cols hacc hf
        have hcr : c ∉ rest := (List.nodup_cons.mp hnd).1
        rw [foldRename_preserve ("accumulated_" ++ c) rest _ ?_]
        · exact h1
        · intro c2 hc2
          refine ⟨fun he => (h5 c2 (by simp [hc2])) he.symm, fun he => ?_⟩
          exact hcr ((string_append_cancel_left "accumulated_" c c2 he) ▸ hc2)
      · have hn2 : n ∈ rest := by
          rcases List.mem_cons.mp hn with h2 | h2
          · exact absurd h2.symm hcn
          · exact h2
        have hnc : n ≠ c := fun he => hcn he.symm
        have hnac : n ≠ "accumulated_" ++ c := h6 c (by simp)
        refine foldRename_find_acc rest _ n v hn2 (List.nodup_cons.mp hnd).2 ?_ ?_
          (fun c2 hc2 => h5 c2 (by simp [hc2])) (fun c2 hc2 => h6 c2 (by simp [hc2]))
        · rw [findCol_renameCols_preserve n c _ hnc hnac cols]
          exact hf
        · intro hmem
          rcases mem_names_renameCols _ c _ cols hmem with he | h3
          · exact hcn (string_append_cancel_left "accumulated_" c n he.symm)
          · exact hacc h3

/-- The dataframe-level rename loop acts as foldRename on the columns and
keeps the index. -/
theorem foldl_renameCol_eq :
    ∀ (l : List String) (d : DataFrame),
      l.foldl (fun d c => d.renameCol c ("accumulated_" ++ c)) d =
        ⟨d.index, foldRename l d.cols⟩
  | [], d => rfl
  | c :: rest, d => by
      have step : (c :: rest).foldl (fun d c => d.renameCol c ("accumulated_" ++ c)) d
          = rest.foldl (fun d c => d.renameCol c ("accumulated_" ++ c))
              (d.renameCol c ("accumulated_" ++ c)) := rfl
      rw [step, foldl_renameCol_eq rest _]
      rfl

/-- Inversion of a successful update_time_df run into its components. -/
theorem update_time_df_ok_inv {df res dfM : DataFrame} {expand expandM : List String}
    {ratio : String × String} {grouping : Option String}
    (h : update_time_df df expand ratio grouping = Except.ok (res, dfM, expandM)) :
    ∃ newCols num den numO denO,
      buildNewCols df grouping expand = Except.ok newCols ∧
      findCol ratio.1 newCols = some num ∧
      findCol ratio.2 newCols = some den ∧
      df.getCol? ratio.1 = some numO ∧
      df.getCol? ratio.2 = some denO ∧
      expandM = expand ++ [ratioNameOf ratio] ∧
      dfM = (expand ++ [ratioNameOf ratio]).foldl
        (fun d c => d.renameCol c ("accumulated_" ++ c))
        (df.setCol (ratioNameOf ratio) (divCol numO denO)) ∧
      res = ⟨dfM.index, dfM.cols ++
        (newCols ++ [(ratioNameOf ratio, divCol num den)]).map
          fun p => ("new_" ++ p.1, p.2)⟩ := by
  unfold update_time_df at h
  split at h
  · exact Except.noConfusion h
  next newCols hbn =>
    split at h
    · exact Except.noConfusion h
    next num hnum =>
      split at h
      · exact Except.noConfusion h
      next den hden =>
        split at h
        · exact Except.noConfusion h
        next numO hnumO =>
          split at h
          · exact Except.noConfusion h
          next denO hdenO =>
            simp only [Except.ok.injEq, Prod.mk.injEq] at h
            obtain ⟨h1, h2, h3⟩ := h
            subst h3; subst h2; subst h1
            exact ⟨newCols, num, den, numO, denO, hbn, hnum, hden, hnumO,
              hdenO, rfl, rfl, rfl⟩

/-- A buildNewCols failure makes the whole call fail. -/
theorem update_time_df_error_of_build (df : DataFrame) (expand : List String)
    (ratio : String × String) (grouping : Option String) (e : String)
    (h : buildNewCols df grouping expand = Except.error e) :
    update_time_df df expand ratio grouping = Except.error e := by
  simp [update_time_df, h]

/-- The integer cast succeeds on a column of integers. -/
theorem astypeInt_int_map : ∀ a : List Int, astypeInt (a.map Val.int) = Except.ok a
  | [] => rfl
  | x :: xs => by
      simp [astypeInt, Val.toInt?, astypeInt_int_map xs, Except.map]

/-- The diff, fill, cast pipeline on the tail of an all-integer column:
every entry subtracts its predecessor, the head subtracting the given
previous value. -/
theorem astype_fill_diff_aux :
    ∀ (xs : List Int) (p : Int),
      astypeInt (fillnaCol (xs.map Val.int) (diffAux (Val.int p) (xs.map Val.int)))
        = Except.ok (List.zipWith (fun b a => b - a) xs (p :: xs))
  | [], _ => rfl
  | y :: ys, p => by
      have hrec := astype_fill_diff_aux ys y
      simp only [fillnaCol] at hrec
      simp [diffAux, fillnaCol, astypeInt, Val.toInt?, Except.map, hrec]

/-- The ungrouped pipeline of update_time_df equals the specification
description on an all-integer column. -/
theorem astype_fill_diff (a : List Int) :
    astypeInt (fillnaCol (a.map Val.int) (diffCol (a.map Val.int)))
      = Except.ok (firstDiffFallback a) := by
  cases a with
  | nil => rfl
  | cons x xs =>
      have hrec := astype_fill_diff_aux xs x
      simp only [fillnaCol] at hrec
      simp [diffCol, diffAux, fillnaCol, astypeInt, Val.toInt?, Except.map,
        firstDiffFallback, hrec]

/-- Looking up a key commutes with wrapping the stored values. -/
theorem lastSeen_map_int (k : Val) :
    ∀ seen : List (Val × Int),
      lastSeen k (seen.map fun p => (p.1, Val.int p.2)) = (lastSeen k seen).map Val.int
  | [] => rfl
  | p :: rest => by
      by_cases h : p.1 = k <;> simp [lastSeen, h, lastSeen_map_int k rest]

/-- The grouped pipeline on an all-integer column with total keys equals
the per-group specification description, for any seen accumulator. -/
theorem astype_fill_groupedDiff_aux :
    ∀ (keys : List Val) (a : List Int) (seen : List (Val × Int)),
      Val.na ∉ keys →
      astypeInt (fillnaCol (a.map Val.int)
        (groupedDiffAux (seen.map fun p => (p.1, Val.int p.2))
          (keys.zip (a.map Val.int))))
        = Except.ok (firstDiffPerGroupAux seen (keys.zip a))
  | [], a, _, _ => by cases a <;> rfl
  | _ :: _, [], _, _ => rfl
  | k :: ks, x :: xs, seen, hna => by
      have hk : ¬(k = Val.na) := fun he => hna (by simp [he])
      have hrec := astype_fill_groupedDiff_aux ks xs ((k, x) :: seen)
        fun hm => hna (by simp [hm])
      simp only [fillnaCol, List.zip, List.map_cons] at hrec
      cases hls : lastSeen k seen with
      | none =>
          have hl2 : lastSeen k (seen.map fun p => (p.1, Val.int p.2)) = none := by
            rw [lastSeen_map_int, hls]; rfl
          simp [groupedDiffAux, hk, hl2, fillnaCol, astypeInt, Val.toInt?,
            Except.map, firstDiffPerGroupAux, hls, List.zip]
          rw [hrec]
      | some p =>
          have hl2 : lastSeen k (seen.map fun p => (p.1, Val.int p.2))
              = some (Val.int p) := by
            rw [lastSeen_map_int, hls]; rfl
          simp [groupedDiffAux, hk, hl2, fillnaCol, astypeInt, Val.toInt?,
            Except.map, firstDiffPerGroupAux, hls, List.zip]
          rw [hrec]

/-- The grouped pipeline of update_time_df equals the specification
description on an all-integer column with total keys. -/
theorem astype_fill_groupedDiff (keys : List Val) (a : List Int)
    (hna : Val.na ∉ keys) :
    astypeInt (fillnaCol (a.map Val.int) (groupedDiffCol keys (a.map Val.int)))
      = Except.ok (firstDiffPerGroup keys a) := by
  have h := astype_fill_groupedDiff_aux keys a [] hna
  simpa [groupedDiffCol, firstDiffPerGroup] using h

/-- One expanded column, ungrouped case. -/
theorem newColumnOf_ungrouped (df : DataFrame) (c : String) (a : List Int)
    (hcol : df.getCol? c = some (a.map Val.int)) :
    newColumnOf df none c = Except.ok (firstDiffFallback a) := by
  simp [newColumnOf, hcol, astype_fill_diff]

/-- One expanded column, grouped case. -/
theorem newColumnOf_grouped (df : DataFrame) (g c : String) (a : List Int)
    (keys : List Val) (hcol : df.getCol? c = some (a.map Val.int))
    (hg : df.getCol? g = some keys) (hna : Val.na ∉ keys) :
    newColumnOf df (some g) c = Except.ok (firstDiffPerGroup keys a) := by
  simp [newColumnOf, hcol, hg, astype_fill_groupedDiff keys a hna]

/-- A successful buildNewCols run holds, for each requested name, the
integer column its pipeline produced. -/
theorem buildNewCols_find :
    ∀ (expand : List String) (df : DataFrame) (grouping : Option String)
      (newCols : List (String × List Val)) (n : String),
      buildNewCols df grouping expand = Except.ok newCols → n ∈ expand →
      ∃ v, newColumnOf df grouping n = Except.ok v ∧
        findCol n newCols = some (v.map Val.int)
  | [], _, _, _, n, _, hn => absurd hn (by simp)
  | c :: rest, df, grouping, newCols, n, h, hn => by
      cases hc : newColumnOf df grouping c with
      | error e => simp [buildNewCols, hc] at h
      | ok l =>
          cases hb : buildNewCols df grouping rest with
          | error e => simp [buildNewCols, hc, hb] at h
          | ok tail =>
              simp only [buildNewCols, hc, hb, Except.ok.injEq] at h
              subst h
              by_cases hcn : c = n
              · subst hcn
                exact ⟨l, hc, by rw [findCol_cons, if_pos rfl]⟩
              · have hn2 : n ∈ rest := by
                  rcases List.mem_cons.mp hn with h2 | h2
                  · exact absurd h2.symm hcn
                  · exact h2
                obtain ⟨v, hv1, hv2⟩ := buildNewCols_find rest df grouping tail n hb hn2
                exact ⟨v, hv1, by rw [findCol_cons, if_neg hcn]; exact hv2⟩

/-- Every column of a successful buildNewCols run is an integer column
produced by the pipeline of its name. -/
theorem buildNewCols_all :
    ∀ (expand : List String) (df : DataFrame) (grouping : Option String)
      (newCols : List (String × List Val)),
      buildNewCols df grouping expand = Except.ok newCols →
      ∀ p ∈ newCols, ∃ v, newColumnOf df grouping p.1 = Except.ok v ∧
        p.2 = v.map Val.int
  | [], _, _, newCols, h, p, hp => by
      simp only [buildNewCols, Except.ok.injEq] at h
      subst h
      simp at hp
  | c :: rest, df, grouping, newCols, h, p, hp => by
      cases hc : newColumnOf df grouping c with
      | error e => simp [buildNewCols, hc] at h
      | ok l =>
          cases hb : buildNewCols df grouping rest with
          | error e => simp [buildNewCols, hc, hb] at h
          | ok tail =>
              simp only [buildNewCols, hc, hb, Except.ok.injEq] at h
              subst h
              rcases List.mem_cons.mp hp with h2 | h2
              · exact ⟨l, by rw [h2]; exact hc, by rw [h2]⟩
              · exact buildNewCols_all rest df grouping tail hb p h2

/-- A failing pipeline for any requested name fails buildNewCols. -/
theorem buildNewCols_error :
    ∀ (expand : List String) (df : DataFrame) (grouping : Option String)
      (n : String) (e : String),
      n ∈ expand → newColumnOf df grouping n = Except.error e →
      ∃ e2, buildNewCols df grouping expand = Except.error e2
  | [], _, _, n, _, hn, _ => absurd hn (by simp)
  | c :: rest, df, grouping, n, e, hn, herr => by
      cases hc : newColumnOf df grouping c with
      | error e2 => exact ⟨e2, by simp [buildNewCols, hc]⟩
      | ok l =>
          have hn2 : n ∈ rest := by
            rcases List.mem_cons.mp hn with h2 | h2
            · rw [h2] at herr
              rw [herr] at hc
              exact Except.noConfusion hc
            · exact h2
          obtain ⟨e2, hb⟩ := buildNewCols_error rest df grouping n e hn2 herr
          exact ⟨e2, by simp [buildNewCols, hc, hb]⟩

/-- Lookup of a prefixed name in a prefixed column list. -/
theorem findCol_map_prefixed (n : String) :
    ∀ (cols : List (String × List Val)) (v : List Val),
      findCol n cols = some v →
      findCol ("new_" ++ n) (cols.map fun p => ("new_" ++ p.1, p.2)) = some v
  | [], v, h => by simp [findCol] at h
  | p :: rest, v, h => by
      by_cases hc : p.1 = n
      · rw [findCol_cons, if_pos hc] at h
        rw [List.map_cons, findCol_cons]
        dsimp only
        rw [if_pos (by rw [hc])]
        exact h
      · rw [findCol_cons, if_neg hc] at h
        rw [List.map_cons, findCol_cons]
        dsimp only
        rw [if_neg fun he => hc (string_append_cancel_left "new_" p.1 n he)]
        exact findCol_map_prefixed n rest v h

/-- In the frame returned by a successful run, the new_ column of an
expanded name holds the integers its pipeline produced, provided the name
is fresh in the input frame. -/
theorem res_new_col (df res dfM : DataFrame) (expand expandM : List String)
    (ratio : String × String) (grouping : Option String) (n : String)
    (v : List Int)
    (hok : update_time_df df expand ratio grouping = Except.ok (res, dfM, expandM))
    (hn : n ∈ expand)
    (hv : newColumnOf df grouping n = Except.ok v)
    (hfresh : ("new_" ++ n) ∉ df.cols.map Prod.fst)
    (hfresh2 : "new_" ++ n ≠ ratioNameOf ratio) :
    findCol ("new_" ++ n) res.cols = some (v.map Val.int) := by
  obtain ⟨newCols, num, den, numO, denO, hbn, hnum, hden, hnumO, hdenO,
    hexp, hdfM, hres⟩ := update_time_df_ok_inv hok
  obtain ⟨v2, hv2, hfind⟩ := buildNewCols_find expand df grouping newCols n hbn hn
  have hvv : v2 = v := Except.ok.inj (hv2.symm.trans hv)
  subst hvv
  rw [hres]
  have hnone : findCol ("new_" ++ n) dfM.cols = none := by
    rw [findCol_eq_none_iff]
    intro hmem
    rw [hdfM, foldl_renameCol_eq] at hmem
    rcases foldRename_names _ _ _ hmem with h2 | ⟨c, _, he⟩
    · rcases mem_names_setCols _ _ _ _ h2 with he | h3
      · exact hfresh2 he
      · exact hfresh h3
    · exact accumulated_ne_new c n he.symm
  rw [findCol_append, hnone, List.map_append, findCol_append,
    findCol_map_prefixed n newCols _ hfind]
  rfl

/-- Series.diff keeps a missing cell missing at its position. -/
theorem diffAux_na_at :
    ∀ (l : List Val) (p : Val) (k : Nat),
      l.get? k = some Val.na → (diffAux p l).get? k = some Val.na
  | [], _, k, h => by simp at h
  | v :: rest, p, 0, h => by
      have hv : v = Val.na := by simpa using h
      subst hv
      cases hp : p.toInt? <;> simp [diffAux, hp, Val.toInt?]
  | v :: rest, p, k + 1, h => by
      have h2 : rest.get? k = some Val.na := by simpa using h
      simpa [diffAux] using diffAux_na_at rest v k h2

/-- The grouped diff keeps a missing cell missing at its position. -/
theorem groupedDiffAux_na_at :
    ∀ (rows : List (Val × Val)) (seen : List (Val × Val)) (k : Nat) (kk : Val),
      rows.get? k = some (kk, Val.na) →
      (groupedDiffAux seen rows).get? k = some Val.na
  | [], _, k, _, h => by simp at h
  | (k0, v) :: rest, seen, 0, kk, h => by
      have hv : k0 = kk ∧ v = Val.na := by simpa using h
      obtain ⟨_, hv2⟩ := hv
      subst hv2
      by_cases hk : k0 = Val.na
      · simp [groupedDiffAux, hk]
      · cases hls : lastSeen k0 seen with
        | none => simp [groupedDiffAux, hk, hls]
        | some p =>
            cases hp : p.toInt? <;>
              simp [groupedDiffAux, hk, hls, hp, Val.toInt?]
  | (k0, v) :: rest, seen, k + 1, kk, h => by
      have h2 : rest.get? k = some (kk, Val.na) := by simpa using h
      by_cases hk : k0 = Val.na
      · simpa [groupedDiffAux, hk] using groupedDiffAux_na_at rest seen k kk h2
      · simpa [groupedDiffAux, hk] using
          groupedDiffAux_na_at rest ((k0, v) :: seen) k kk h2

/-- Filling from a source that is itself missing leaves the cell missing. -/
theorem fillnaCol_na_at :
    ∀ (orig c : List Val) (k : Nat),
      orig.get? k = some Val.na → c.get? k = some Val.na →
      (fillnaCol orig c).get? k = some Val.na
  | [], _, k, h, _ => by simp at h
  | _ :: _, [], k, _, h2 => by simp at h2
  | o :: os, x :: xs, 0, h, h2 => by
      have ho : o = Val.na := by simpa using h
      have hx : x = Val.na := by simpa using h2
      subst ho; subst hx
      simp [fillnaCol]
  | o :: os, x :: xs, k + 1, h, h2 => by
      have h3 : os.get? k = some Val.na := by simpa using h
      have h4 : xs.get? k = some Val.na := by simpa using h2
      simpa [fillnaCol] using fillnaCol_na_at os xs k h3 h4

/-- The integer cast fails on a column holding a missing cell. -/
theorem astypeInt_error_at :
    ∀ (l : List Val) (k : Nat),
      l.get? k = some Val.na → ∃ e, astypeInt l = Except.error e
  | [], k, h => by simp at h
  | v :: rest, 0, h => by
      have hv : v = Val.na := by simpa using h
      subst hv
      exact ⟨"Cannot convert non-finite values to integer",
        by simp [astypeInt, Val.toInt?]⟩
  | v :: rest, k + 1, h => by
      have h2 : rest.get? k = some Val.na := by simpa using h
      obtain ⟨e, he⟩ := astypeInt_error_at rest k h2
      cases hv : v.toInt? with
      | none =>
          exact ⟨"Cannot convert non-finite values to integer",
            by simp [astypeInt, hv]⟩
      | some n => exact ⟨e, by simp [astypeInt, hv, he, Except.map]⟩

/-- Pointwise view of zipping two lists. -/
theorem get?_zip_eq {α β : Type} :
    ∀ (l1 : List α) (l2 : List β) (k : Nat) (x : α) (y : β),
      l1.get? k = some x → l2.get? k = some y →
      (l1.zip l2).get? k = some (x, y)
  | [], _, k, _, _, h, _ => by simp at h
  | _ :: _, [], k, _, _, _, h2 => by simp at h2
  | a :: as, b :: bs, 0, x, y, h, h2 => by
      have ha : a = x := by simpa using h
      have hb : b = y := by simpa using h2
      subst ha; subst hb
      simp
  | a :: as, b :: bs, k + 1, x, y, h, h2 => by
      have h3 : as.get? k = some x := by simpa using h
      have h4 : bs.get? k = some y := by simpa using h2
      simpa using get?_zip_eq as bs k x y h3 h4

/-- Series.diff keeps the column length. -/
theorem diffAux_length : ∀ (l : List Val) (p : Val), (diffAux p l).length = l.length
  | [], _ => rfl
  | v :: rest, p => by simp [diffAux, diffAux_length rest v]

/-- The grouped diff keeps the row count. -/
theorem groupedDiffAux_length :
    ∀ (rows : List (Val × Val)) (seen : List (Val × Val)),
      (groupedDiffAux seen rows).length = rows.length
  | [], _ => rfl
  | (k0, v) :: rest, seen => by
      by_cases hk : k0 = Val.na <;>
        simp [groupedDiffAux, hk, groupedDiffAux_length rest]

/-- The integer cast keeps the column length. -/
theorem astypeInt_ok_length :
    ∀ (l : List Val) (v : List Int),
      astypeInt l = Except.ok v → v.length = l.length
  | [], v, h => by
      have h2 : ([] : List Int) = v := Except.ok.inj h
      simp [← h2]
  | x :: rest, v, h => by
      cases hx : x.toInt? with
      | none => simp [astypeInt, hx] at h
      | some n =>
          cases hr : astypeInt rest with
          | error e => simp [astypeInt, hx, hr, Except.map] at h
          | ok tail =>
              simp only [astypeInt, hx, hr, Except.map, Except.ok.injEq] at h
              subst h
              simp [astypeInt_ok_length rest tail hr]

/-- A present column of a well-formed frame has the row count of the
frame. -/
theorem getCol_length (df : DataFrame) (c : String) (col : List Val)
    (hwf : DataFrame.WF df) (h : df.getCol? c = some col) :
    col.length = df.index.length := by
  obtain ⟨p, hp, _, h2⟩ := findCol_mem c df.cols col h
  exact h2 ▸ hwf p hp

/-- A successful pipeline output has the row count of the frame. -/
theorem newColumnOf_ok_length (df : DataFrame) (grouping : Option String)
    (c : String) (v : List Int) (hwf : DataFrame.WF df)
    (h : newColumnOf df grouping c = Except.ok v) :
    v.length = df.index.length := by
  cases hcol : df.getCol? c with
  | none => simp [newColumnOf, hcol] at h
  | some col =>
      have hcl : col.length = df.index.length := getCol_length df c col hwf hcol
      cases grouping with
      | none =>
          simp only [newColumnOf, hcol] at h
          calc v.length = (fillnaCol col (diffCol col)).length :=
                astypeInt_ok_length _ v h
            _ = min col.length (diffCol col).length := List.length_zipWith _ _ _
            _ = col.length := by rw [diffCol, diffAux_length]; exact min_self _
            _ = df.index.length := hcl
      | some g =>
          cases hg : df.getCol? g with
          | none => simp [newColumnOf, hcol, hg] at h
          | some keys =>
              have hkl : keys.length = df.index.length := getCol_length df g keys hwf hg
              simp only [newColumnOf, hcol, hg] at h
              calc v.length = (fillnaCol col (groupedDiffCol keys col)).length :=
                    astypeInt_ok_length _ v h
                _ = min col.length (groupedDiffCol keys col).length :=
                    List.length_zipWith _ _ _
                _ = min col.length (keys.zip col).length := by
                    rw [groupedDiffCol, groupedDiffAux_length]
                _ = df.index.length := by
                    rw [List.length_zip, hcl, hkl]
                    simp
                _ = df.index.length := rfl

/-- A missing accumulated value anywhere in an expanded column, keys being
full, fails its pipeline. -/
theorem newColumnOf_na_error (df : DataFrame) (grouping : Option String)
    (c : String) (col : List Val) (k : Nat) (hwf : DataFrame.WF df)
    (hcol : df.getCol? c = some col) (hna : col.get? k = some Val.na) :
    ∃ e, newColumnOf df grouping c = Except.error e := by
  cases grouping with
  | none =>
      obtain ⟨e, he⟩ := astypeInt_error_at (fillnaCol col (diffCol col)) k
        (fillnaCol_na_at col _ k hna (diffAux_na_at col Val.na k hna))
      exact ⟨e, by simp [newColumnOf, hcol, he]⟩
  | some g =>
      cases hg : df.getCol? g with
      | none => exact ⟨"KeyError: " ++ g, by simp [newColumnOf, hcol, hg]⟩
      | some keys =>
          have hcl : col.length = df.index.length := getCol_length df c col hwf hcol
          have hkl : keys.length = df.index.length := getCol_length df g keys hwf hg
          have hk : k < keys.length := by
            obtain ⟨hlt, _⟩ := List.get?_eq_some.mp hna
            omega
          have hkk : keys.get? k = some (keys.get ⟨k, hk⟩) := List.get?_eq_get hk
          have hzip := get?_zip_eq keys col k (keys.get ⟨k, hk⟩) Val.na hkk hna
          have hgd : (groupedDiffCol keys col).get? k = some Val.na :=
            groupedDiffAux_na_at (keys.zip col) [] k (keys.get ⟨k, hk⟩) hzip
          obtain ⟨e, he⟩ := astypeInt_error_at (fillnaCol col (groupedDiffCol keys col)) k
            (fillnaCol_na_at col _ k hna hgd)
          exact ⟨e, by simp [newColumnOf, hcol, hg, he]⟩

/-- The telescoping sum of consecutive differences based at p. -/
theorem sum_take_zipWith_sub :
    ∀ (xs : List Int) (p : Int) (k : Nat) (x : Int), xs.get? k = some x →
      p + ((List.zipWith (fun b a => b - a) xs (p :: xs)).take (k + 1)).sum = x
  | [], _, k, x, h => by simp at h
  | y :: ys, p, 0, x, h => by
      have hy : y = x := by simpa using h
      subst hy
      simp
  | y :: ys, p, k + 1, x, h => by
      have h2 : ys.get? k = some x := by simpa using h
      have hs := sum_take_zipWith_sub ys y k x h2
      simp only [List.zipWith, List.take_succ_cons, List.sum_cons]
      omega

/-- Prefix sums of the specified daily values reconstruct the accumulated
values. -/
theorem sum_take_firstDiffFallback :
    ∀ (a : List Int) (k : Nat) (x : Int), a.get? k = some x →
      ((firstDiffFallback a).take (k + 1)).sum = x
  | [], k, x, h => by simp at h
  | a0 :: as, 0, x, h => by
      have ha : a0 = x := by simpa using h
      subst ha
      simp [firstDiffFallback]
  | a0 :: as, k + 1, x, h => by
      have h2 : as.get? k = some x := by simpa using h
      have hs := sum_take_zipWith_sub as a0 k x h2
      simp only [firstDiffFallback, List.take_succ_cons, List.sum_cons]
      omega

/-- The specified daily values keep the column length. -/
theorem firstDiffFallback_length :
    ∀ a : List Int, (firstDiffFallback a).length = a.length
  | [] => rfl
  | x :: xs => by simp [firstDiffFallback]

/-- C1: the claim is right and the code is wrong. The code compares the
age string lexicographically, so the bucket 100s, which is above 50s in
the ordered decade scale and hence should be old (the docstring of
assign_age_category says old is 60 plus), is classified young because the
string "100s" is lexicographically at most "20s". The literal examples of
the claim do hold, and a missing age yields a missing category. -/
theorem assign_age_category_lex_bug :
    assign_age_category (some "100s") = some "young" ∧
    age_category_spec (some "100s") = some "old" ∧
    (load_patient_info_row
      { patient_id := "1000000001", age := some "100s", contact_number := none,
        symptom_onset_date := none, confirmed_date := none,
        released_date := none, deceased_date := none }).age_category
      = some "young" ∧
    assign_age_category (some "10s") = some "young" ∧
    assign_age_category (some "30s") = some "middle" ∧
    assign_age_category (some "70s") = some "old" ∧
    assign_age_category none = none := by
  decide

/-- C5: every row of the cases table whose raw latitude field is the
sentinel "-" comes out of load_cases_data with both latitude and longitude
missing. -/
theorem cases_sentinel_nulls_coordinates (rows : List CaseRow) (i : Nat)
    (r : CaseRow) (h : rows.get? i = some r) (hs : r.latitude = "-") :
    (load_cases_data rows).get? i = some (load_cases_row r) ∧
    (load_cases_row r).latitude = none ∧
    (load_cases_row r).longitude = none := by
  refine ⟨by rw [load_cases_data, get?_map_eq, h]; rfl, ?_, ?_⟩ <;>
    simp [load_cases_row, hs]

/-- Witness for C5 at a concrete row whose latitude is the sentinel. -/
theorem cases_sentinel_nulls_coordinates_witness :
    (load_cases_data [caseRowNoCoord]).get? 0 = some (load_cases_row caseRowNoCoord) ∧
    (load_cases_row caseRowNoCoord).latitude = none ∧
    (load_cases_row caseRowNoCoord).longitude = none :=
  cases_sentinel_nulls_coordinates [caseRowNoCoord] 0 caseRowNoCoord rfl rfl

/-- C6: in load_cases_data, a city of "-" is replaced by the province, and
sub_city copies the substituted city except when that city is the literal
"from other city", in which case sub_city takes the province. -/
theorem cases_city_substitution (rows : List CaseRow) (i : Nat) (r : CaseRow)
    (h : rows.get? i = some r) :
    (load_cases_data rows).get? i = some (load_cases_row r) ∧
    (r.city = "-" → (load_cases_row r).city = r.province) ∧
    (r.city ≠ "-" → (load_cases_row r).city = r.city) ∧
    ((load_cases_row r).city = "from other city" →
      (load_cases_row r).sub_city = r.province) ∧
    ((load_cases_row r).city ≠ "from other city" →
      (load_cases_row r).sub_city = (load_cases_row r).city) := by
  refine ⟨by rw [load_cases_data, get?_map_eq, h]; rfl, ?_, ?_, ?_, ?_⟩ <;>
      intro hc <;> simp only [load_cases_row] at hc ⊢
  · simp [hc]
  · simp [hc]
  · rw [if_pos hc]
  · rw [if_neg hc]

/-- Witness for C6 at a concrete row whose city is the sentinel. -/
theorem cases_city_substitution_witness :
    (load_cases_row caseRowNoCity).city = "Busan" ∧
    (load_cases_row caseRowNoCity).sub_city = (load_cases_row caseRowNoCity).city := by
  have h := cases_city_substitution [caseRowNoCity] 0 caseRowNoCity rfl
  exact ⟨h.2.1 rfl, h.2.2.2.2 (by decide)⟩

/-- C7: each derived interval column of load_patient_info equals the whole
day difference of its two endpoint dates when both are present, and is
missing when either endpoint is missing. -/
theorem patient_interval_columns (rows : List PatientRow) (i : Nat)
    (r : PatientRow) (h : rows.get? i = some r) :
    (load_patient_info rows).get? i = some (load_patient_info_row r) ∧
    (∀ e s, r.confirmed_date = some e → r.symptom_onset_date = some s →
      (load_patient_info_row r).symptom_to_confirmed = some (e - s)) ∧
    (r.confirmed_date = none ∨ r.symptom_onset_date = none →
      (load_patient_info_row r).symptom_to_confirmed = none) ∧
    (∀ e s, r.released_date = some e → r.confirmed_date = some s →
      (load_patient_info_row r).confirmed_to_released = some (e - s)) ∧
    (r.released_date = none ∨ r.confirmed_date = none →
      (load_patient_info_row r).confirmed_to_released = none) ∧
    (∀ e s, r.deceased_date = some e → r.confirmed_date = some s →
      (load_patient_info_row r).confirmed_to_deceased = some (e - s)) ∧
    (r.deceased_date = none ∨ r.confirmed_date = none →
      (load_patient_info_row r).confirmed_to_deceased = none) := by
  refine ⟨by rw [load_patient_info, get?_map_eq, h]; rfl, ?_, ?_, ?_, ?_, ?_, ?_⟩
  · intro e s he hs; simp [load_patient_info_row, dayDiff, he, hs]
  · rintro (hc | hc) <;>
      · cases hs : r.symptom_onset_date <;>
          cases hc2 : r.confirmed_date <;>
          simp_all [load_patient_info_row, dayDiff]
  · intro e s he hs; simp [load_patient_info_row, dayDiff, he, hs]
  · rintro (hc | hc) <;>
      · cases hs : r.released_date <;>
          cases hc2 : r.confirmed_date <;>
          simp_all [load_patient_info_row, dayDiff]
  · intro e s he hs; simp [load_patient_info_row, dayDiff, he, hs]
  · rintro (hc | hc) <;>
      · cases hs : r.deceased_date <;>
          cases hc2 : r.confirmed_date <;>
          simp_all [load_patient_info_row, dayDiff]

/-- Witness for C7: confirmed on 2020-01-10 and released on 2020-01-20
give a ten day confirmed_to_released interval, and the missing symptom
onset gives a missing symptom_to_confirmed interval. -/
theorem patient_interval_columns_witness :
    (load_patient_info [patientRowDates]).get? 0
      = some (load_patient_info_row patientRowDates) ∧
    (load_patient_info_row patientRowDates).confirmed_to_released = some 10 ∧
    (load_patient_info_row patientRowDates).symptom_to_confirmed = none := by
  have h := patient_interval_columns [patientRowDates] 0 patientRowDates rfl
  exact ⟨h.1,
    (h.2.2.2.1 (daysFromCivil 2020 1 20) (daysFromCivil 2020 1 10) rfl rfl).trans
      (by decide),
    h.2.2.1 (Or.inr rfl)⟩

/-- C8: the contact_number produced by load_patient_info is missing exactly
when the raw value was missing, was the sentinel "-", or was a string of
length ten; every other raw value is kept. -/
theorem patient_contact_number_cleaning (rows : List PatientRow) (i : Nat)
    (r : PatientRow) (h : rows.get? i = some r) :
    (load_patient_info rows).get? i = some (load_patient_info_row r) ∧
    ((load_patient_info_row r).contact_number = none ↔
      r.contact_number = none ∨ r.contact_number = some "-" ∨
        ∃ s, r.contact_number = some s ∧ s.length = 10) ∧
    (∀ s, r.contact_number = some s → s ≠ "-" → s.length ≠ 10 →
      (load_patient_info_row r).contact_number = some s) := by
  refine ⟨by rw [load_patient_info, get?_map_eq, h]; rfl, ?_, ?_⟩
  · cases hc : r.contact_number with
    | none => simp [load_patient_info_row, contact_number_clean, hc]
    | some s =>
        simp only [load_patient_info_row, contact_number_clean, hc]
        split_ifs with h1 h2 <;> simp_all
  · intro s hs h1 h2
    simp [load_patient_info_row, contact_number_clean, hs, h1, h2]

/-- Witness for C8: a ten character contact value is dropped and a plain
value is kept. -/
theorem patient_contact_number_cleaning_witness :
    (load_patient_info_row patientRowContactId).contact_number = none ∧
    (load_patient_info_row patientRowContactPlain).contact_number = some "17" :=
  ⟨((patient_contact_number_cleaning [patientRowContactId] 0
        patientRowContactId rfl).2.1).mpr
      (Or.inr (Or.inr ⟨"1000000001", rfl, rfl⟩)),
    (patient_contact_number_cleaning [patientRowContactPlain] 0
        patientRowContactPlain rfl).2.2 "17" rfl (by decide) (by decide)⟩

/-- Stored values after a column assignment: the assigned value or a
member of the original list. -/
theorem mem_setCols (q : String × List Val) (nm : String) (c : List Val)
    (cols : List (String × List Val)) (h : q ∈ setCols nm c cols) :
    q.2 = c ∨ q ∈ cols := by
  unfold setCols at h
  split at h
  · obtain ⟨p, hp, he⟩ := List.mem_map.mp h
    by_cases h1 : p.1 = nm
    · rw [if_pos h1] at he
      exact Or.inl (by rw [← he])
    · rw [if_neg h1] at he
      exact Or.inr (he ▸ hp)
  · rcases List.mem_append.mp h with h2 | h2
    · exact Or.inr h2
    · simp at h2
      exact Or.inl (by rw [h2])

/-- C2 corrected: update_time_df mutates both of its inputs on success.
The expand list gains the ratio column name, and the frame passed as df,
while keeping its index and every stored column value (under accumulated_
labels), gains one appended accumulated ratio column. -/
theorem update_time_df_mutates_inputs (df res dfM : DataFrame)
    (expand expandM : List String) (ratio : String × String)
    (grouping : Option String)
    (hok : update_time_df df expand ratio grouping = Except.ok (res, dfM, expandM))
    (hfresh : ratioNameOf ratio ∉ df.cols.map Prod.fst) :
    expandM = expand ++ [ratioNameOf ratio] ∧
    dfM.index = df.index ∧
    ∃ rc, dfM.cols.map Prod.snd = df.cols.map Prod.snd ++ [rc] := by
  obtain ⟨newCols, num, den, numO, denO, hbn, hnum, hden, hnumO, hdenO,
    hexp, hdfM, hres⟩ := update_time_df_ok_inv hok
  have hn : findCol (ratioNameOf ratio) df.cols = none :=
    (findCol_eq_none_iff _ _).mpr hfresh
  refine ⟨hexp, ?_, divCol numO denO, ?_⟩
  · rw [hdfM, foldl_renameCol_eq]
    rfl
  · rw [hdfM, foldl_renameCol_eq]
    show (foldRename _ (setCols _ _ df.cols)).map Prod.snd = _
    rw [foldRename_map_snd]
    simp [setCols, hn]

/-- Witness for the corrected C2 at the example run. -/
theorem update_time_df_mutates_inputs_witness :
    exExpandM = ["confirmed", "released"] ++ [ratioNameOf ("released", "confirmed")] ∧
    exDfM.index = exDf.index ∧
    ∃ rc, exDfM.cols.map Prod.snd = exDf.cols.map Prod.snd ++ [rc] :=
  update_time_df_mutates_inputs exDf exRes exDfM ["confirmed", "released"]
    exExpandM ("released", "confirmed") none rfl (by decide)

/-- C2 counterexample: on the example frame update_time_df succeeds and
the expand argument ends up extended by the ratio column name, so the
inputs have not been left unchanged. -/
theorem update_time_df_mutates_counterexample :
    Except.map (fun t => t.2.2)
      (update_time_df exDf ["confirmed", "released"] ("released", "confirmed") none)
      = Except.ok exExpandM ∧ exExpandM ≠ ["confirmed", "released"] :=
  ⟨rfl, by decide⟩

/-- C3: on a successful run over an all-integer accumulated column, the
new_ column of the returned frame is the first difference along row order,
per group when a grouping column is given (with all keys present) and
globally otherwise, the first row of each group keeping its accumulated
value. -/
theorem update_time_df_first_difference (df res dfM : DataFrame)
    (expand expandM : List String) (ratio : String × String)
    (grouping : Option String) (keys : Option (List Val)) (n : String)
    (a : List Int)
    (hok : update_time_df df expand ratio grouping = Except.ok (res, dfM, expandM))
    (hn : n ∈ expand)
    (hcol : df.getCol? n = some (a.map Val.int))
    (hkeys : KeysFor df grouping keys)
    (hfresh : ("new_" ++ n) ∉ df.cols.map Prod.fst)
    (hfresh2 : "new_" ++ n ≠ ratioNameOf ratio) :
    findCol ("new_" ++ n) res.cols = some ((expandedSpec keys a).map Val.int) := by
  cases grouping with
  | none =>
      cases keys with
      | none =>
          exact res_new_col df res dfM expand expandM ratio none n _ hok hn
            (newColumnOf_ungrouped df n a hcol) hfresh hfresh2
      | some ks => exact hkeys.elim
  | some g =>
      cases keys with
      | none => exact hkeys.elim
      | some ks =>
          obtain ⟨hg, hna⟩ := hkeys
          exact res_new_col df res dfM expand expandM ratio (some g) n _ hok hn
            (newColumnOf_grouped df g n a ks hcol hg hna) hfresh hfresh2

/-- Witness for C3: on the example run the expanded confirmed column
10, 15, 23 yields the daily column 10, 5, 8. -/
theorem update_time_df_first_difference_witness :
    findCol ("new_" ++ "confirmed") exRes.cols
      = some ((expandedSpec none [10, 15, 23]).map Val.int) ∧
    (expandedSpec none [10, 15, 23]).map Val.int
      = [Val.int 10, Val.int 5, Val.int 8] :=
  ⟨update_time_df_first_difference exDf exRes exDfM ["confirmed", "released"]
      exExpandM ("released", "confirmed") none none "confirmed" [10, 15, 23]
      rfl (by decide) rfl trivial (by decide) (by decide),
    by decide⟩

/-- C4: a successful run returns a frame over the same index as the input,
well-formed over that index (same row count in every column), and for an
ungrouped run on an all-integer accumulated column the prefix sums of the
new_ values reconstruct the accumulated_ values at every row. -/
theorem update_time_df_roundtrip (df res dfM : DataFrame)
    (expand expandM : List String) (ratio : String × String)
    (grouping : Option String)
    (hok : update_time_df df expand ratio grouping = Except.ok (res, dfM, expandM))
    (hwf : DataFrame.WF df) :
    res.index = df.index ∧ DataFrame.WF res ∧
    (grouping = none →
      ∀ (n : String) (a : List Int), n ∈ expand →
        df.getCol? n = some (a.map Val.int) →
        ("new_" ++ n) ∉ df.cols.map Prod.fst →
        ("accumulated_" ++ n) ∉ df.cols.map Prod.fst →
        "new_" ++ n ≠ ratioNameOf ratio →
        "accumulated_" ++ n ≠ ratioNameOf ratio →
        (expand ++ [ratioNameOf ratio]).Nodup →
        (∀ c ∈ expand ++ [ratioNameOf ratio],
          c ≠ "accumulated_" ++ n ∧ n ≠ "accumulated_" ++ c) →
        findCol ("accumulated_" ++ n) res.cols = some (a.map Val.int) ∧
        ∃ d : List Int, findCol ("new_" ++ n) res.cols = some (d.map Val.int) ∧
          d.length = a.length ∧
          ∀ k x, a.get? k = some x → (d.take (k + 1)).sum = x) := by
  obtain ⟨newCols, num, den, numO, denO, hbn, hnum, hden, hnumO, hdenO,
    hexp, hdfM, hres⟩ := update_time_df_ok_inv hok
  have hidx : dfM.index = df.index := by
    rw [hdfM, foldl_renameCol_eq]
    rfl
  have hresidx : res.index = df.index := by rw [hres]; exact hidx
  refine ⟨hresidx, ?_, ?_⟩
  · -- well-formedness of the returned frame
    intro p hp
    rw [hresidx]
    rw [hres] at hp
    have hnuml : numO.length = df.index.length :=
      getCol_length df ratio.1 numO hwf hnumO
    have hdenl : denO.length = df.index.length :=
      getCol_length df ratio.2 denO hwf hdenO
    rcases List.mem_append.mp hp with h2 | h2
    · -- a column of the mutated frame
      have hsnd : p.2 ∈ dfM.cols.map Prod.snd := List.mem_map_of_mem Prod.snd h2
      rw [hdfM, foldl_renameCol_eq] at hsnd
      have hsnd2 : p.2 ∈ (setCols (ratioNameOf ratio) (divCol numO denO) df.cols).map
          Prod.snd := by
        have := foldRename_map_snd (expand ++ [ratioNameOf ratio])
          (setCols (ratioNameOf ratio) (divCol numO denO) df.cols)
        exact this ▸ hsnd
      obtain ⟨q, hq, he⟩ := List.mem_map.mp hsnd2
      rcases mem_setCols q _ _ _ hq with h3 | h3
      · rw [← he, h3, divCol, List.length_zipWith, hnuml, hdenl]
        simp
      · rw [← he]
        exact hwf q h3
    · -- a daily column
      obtain ⟨q, hq, he⟩ := List.mem_map.mp h2
      rcases List.mem_append.mp hq with h3 | h3
      · obtain ⟨v, hv1, hv2⟩ := buildNewCols_all expand df grouping newCols hbn q h3
        have : p.2 = v.map Val.int := by rw [← he]; exact hv2
        rw [this, List.length_map]
        exact newColumnOf_ok_length df grouping q.1 v hwf hv1
      · simp only [List.mem_singleton] at h3
        obtain ⟨qn, hqn, _, hq2⟩ := findCol_mem ratio.1 newCols num hnum
        obtain ⟨vn, hvn1, hvn2⟩ := buildNewCols_all expand df grouping newCols hbn qn hqn
        have hnl : num.length = df.index.length := by
          rw [← hq2, hvn2, List.length_map]
          exact newColumnOf_ok_length df grouping qn.1 vn hwf hvn1
        obtain ⟨qd, hqd, _, hq3⟩ := findCol_mem ratio.2 newCols den hden
        obtain ⟨vd, hvd1, hvd2⟩ := buildNewCols_all expand df grouping newCols hbn qd hqd
        have hdl : den.length = df.index.length := by
          rw [← hq3, hvd2, List.length_map]
          exact newColumnOf_ok_length df grouping qd.1 vd hwf hvd1
        have : p.2 = divCol num den := by rw [← he, h3]
        rw [this, divCol, List.length_zipWith, hnl, hdl]
        simp
  · -- ungrouped prefix-sum reconstruction
    intro hg n a hn hcol hf1 hf2 hf3 hf4 hnd hcc
    subst hg
    have hne_r : n ≠ ratioNameOf ratio := by
      intro he
      exact (List.nodup_append.mp hnd).2.2 hn (by simp [he])
    constructor
    · have hfindn : findCol n (setCols (ratioNameOf ratio) (divCol numO denO)
          df.cols) = some (a.map Val.int) := by
        rw [findCol_setCols_preserve _ _ _ _ hne_r]
        exact hcol
      have hacc : findCol ("accumulated_" ++ n) dfM.cols = some (a.map Val.int) := by
        rw [hdfM, foldl_renameCol_eq]
        refine foldRename_find_acc (expand ++ [ratioNameOf ratio]) _ n _
          (by simp [hn]) hnd hfindn ?_ (fun c hc => (hcc c hc).1)
          (fun c hc => (hcc c hc).2)
        intro hmem
        rcases mem_names_setCols _ _ _ _ hmem with he | h3
        · exact hf4 he
        · exact hf2 h3
      rw [hres, findCol_append, hacc]
      rfl
    · exact ⟨firstDiffFallback a,
        res_new_col df res dfM expand expandM ratio none n _ hok hn
          (newColumnOf_ungrouped df n a hcol) hf1 hf3,
        firstDiffFallback_length a,
        fun k x hkx => sum_take_firstDiffFallback a k x hkx⟩

/-- Witness for C4 at the example run. -/
theorem update_time_df_roundtrip_witness :
    exRes.index = exDf.index ∧
    findCol ("accumulated_" ++ "confirmed") exRes.cols
      = some (([10, 15, 23] : List Int).map Val.int) ∧
    ∃ d : List Int, findCol ("new_" ++ "confirmed") exRes.cols
        = some (d.map Val.int) ∧
      d.length = ([10, 15, 23] : List Int).length ∧
      ∀ k x, ([10, 15, 23] : List Int).get? k = some x →
        (d.take (k + 1)).sum = x := by
  have h := update_time_df_roundtrip exDf exRes exDfM ["confirmed", "released"]
    exExpandM ("released", "confirmed") none rfl
    (by unfold DataFrame.WF; decide)
  have h3 := h.2.2 rfl "confirmed" [10, 15, 23] (by decide) rfl (by decide)
    (by decide) (by decide) (by decide) (by decide) (by decide)
  exact ⟨h.1, h3.1, h3.2⟩

/-- C10: a run either returns a frame whose new_ columns for the expanded
names hold integers only, or raises; in particular a missing accumulated
value at a row other than the first row of its group fails the integer
cast, and no frame is returned. -/
theorem update_time_df_int_cast (df : DataFrame) (expand : List String)
    (ratio : String × String) (grouping : Option String)
    (hwf : DataFrame.WF df) :
    (∀ res dfM expandM, update_time_df df expand ratio grouping
        = Except.ok (res, dfM, expandM) →
      ∀ n, n ∈ expand → ("new_" ++ n) ∉ df.cols.map Prod.fst →
        "new_" ++ n ≠ ratioNameOf ratio →
        ∃ v : List Int, findCol ("new_" ++ n) res.cols = some (v.map Val.int)) ∧
    (∀ n col k, n ∈ expand → df.getCol? n = some col → 0 < k →
      col.get? k = some Val.na →
      ∃ e, update_time_df df expand ratio grouping = Except.error e) := by
  constructor
  · intro res dfM expandM hok n hn hf1 hf2
    obtain ⟨newCols, num, den, numO, denO, hbn, _, _, _, _, _, _, _⟩ :=
      update_time_df_ok_inv hok
    obtain ⟨v, hv1, _⟩ := buildNewCols_find expand df grouping newCols n hbn hn
    exact ⟨v, res_new_col df res dfM expand expandM ratio grouping n v hok hn
      hv1 hf1 hf2⟩
  · intro n col k hn hcol _ hna
    obtain ⟨e, he⟩ := newColumnOf_na_error df grouping n col k hwf hcol hna
    obtain ⟨e2, hb⟩ := buildNewCols_error expand df grouping n e hn he
    exact ⟨e2, update_time_df_error_of_build df expand ratio grouping e2 hb⟩

/-- Witness for C10: the example run produces integer daily columns, and
the example frame with a missing accumulated value at its second row makes
the call fail. -/
theorem update_time_df_int_cast_witness :
    (∃ v : List Int, findCol ("new_" ++ "confirmed") exRes.cols
      = some (v.map Val.int)) ∧
    (∃ e, update_time_df exNaDf ["confirmed", "released"]
      ("released", "confirmed") none = Except.error e) := by
  have h1 := (update_time_df_int_cast exDf ["confirmed", "released"]
    ("released", "confirmed") none (by unfold DataFrame.WF; decide)).1
    exRes exDfM exExpandM rfl
    "confirmed" (by decide) (by decide) (by decide)
  have h2 := (update_time_df_int_cast exNaDf ["confirmed", "released"]
    ("released", "confirmed") none (by unfold DataFrame.WF; decide)).2 "confirmed"
    [Val.int 10, Val.na, Val.int 23] 1 (by decide) rfl (by decide) rfl
  exact ⟨h1, h2⟩

/-- C9 corrected: the strip and re-parse of the symptom onset column only
runs when the initial parse_dates pass failed and left the column as
strings; in that case the output is the dates of the stripped cells when
they all convert. When every raw cell converts in the initial pass, among
them any whitespace-padded dates, the column is already datetimes and the
str accessor raises, so load_patient_info fails. -/
theorem symptom_onset_strip_amended (p : String → Option Int)
    (raw : List (Option String)) :
    ((raw.all fun o => (pdConvert p o).isSome) = true →
      load_symptom_onset p raw =
        Except.error "AttributeError: Can only use .str accessor with string values") ∧
    ((raw.all fun o => (pdConvert p o).isSome) = false →
      ((raw.map (Option.map pyStrip)).all fun o => (pdConvert p o).isSome) = true →
      load_symptom_onset p raw =
        Except.ok ((raw.map (Option.map pyStrip)).map fun o =>
          (pdConvert p o).getD none)) := by
  constructor
  · intro h
    simp [load_symptom_onset, tryParseDates, h, stripThenParse]
  · intro h1 h2
    simp [load_symptom_onset, tryParseDates, h1, stripThenParse, h2]

/-- C9 counterexample: a column whose cells are parseable dates carrying
trailing whitespace is converted by the whitespace-tolerant initial pass,
so the strip step hits a datetime column and the pipeline raises instead
of succeeding. -/
theorem symptom_onset_whitespace_counterexample :
    pyStrip "2020-01-10 " ≠ "2020-01-10 " ∧
    (pTol "2020-01-10 ").isSome = true ∧
    load_symptom_onset pTol [some "2020-01-10 ", some "2020-01-15"]
      = Except.error "AttributeError: Can only use .str accessor with string values" :=
  ⟨by decide, by decide, rfl⟩

/-- Witness for the corrected C9: with a whitespace-only cell the initial
pass fails, the column stays strings, and stripping then re-parsing yields
the date of the clean cell and a missing value for the blank one. -/
theorem symptom_onset_strip_amended_witness :
    load_symptom_onset pTol [some "2020-01-10", some " "]
      = Except.ok [some (daysFromCivil 2020 1 10), none] := by
  have h := (symptom_onset_strip_amended pTol [some "2020-01-10", some " "]).2
    (by decide) (by decide)
  exact h.trans rfl

end Covid
